import Mathlib

/-!
Verification of the automation and scheduling core of the agency-manager
repository against its natural-language specification.

The Lean definitions below are a shallow embedding of the Python sources:

* `src/utils/workflow_engine.py`    — trigger types, workflows, action dispatch
* `src/utils/workflow_templates.py` — the six default workflow templates
* `src/utils/notification_rules.py` — notification rules and the rule matcher
* `src/utils/calendar_manager.py`   — conflict check and slot search

Modelling conventions:

* Python exceptions are modelled with `Except String`; a raising handler or
  condition is a function returning `Except.error msg` (`msg` models `str(e)`).
* Python `dict.get` on the handler registry is a function `String → Option h`.
* Datetimes are modelled as `Int` minutes (comparisons on ISO datetime strings
  coincide with chronological order, so only the order structure matters).
* A Python value that can be `None` is an `Option`; truthiness of a string is
  `some s` with `s ≠ ""`, truthiness of an int is being nonzero.
* Context dictionaries are modelled by records with one field per key the
  embedded code reads; `dict.get(key)` of an absent key is the `none` value of
  the corresponding `Option` field (or the recorded default for `get(key, d)`).
-/

set_option autoImplicit false

namespace AgencyManager

/-! ## Definitions: shallow embedding of the sources -/

/-- Embedding of `TriggerType` (workflow_engine.py, lines 12-21). -/
inductive TriggerType where
  | quotationApproved
  | contractSigned
  | projectCreated
  | taskCompleted
  | paymentReceived
  | inquiryCreated
  | scheduled
  | manual
  deriving DecidableEq, Repr

/-- Embedding of `Action` (workflow_engine.py, lines 116-121): an action type
string plus an opaque config value (the engine never inspects the config). -/
structure Action (Cfg : Type) where
  type : String
  config : Cfg
  deriving Repr

/-- Embedding of `Workflow.__init__` (workflow_engine.py, lines 64-77).
`condition` is `Option` because the Python default is `None`; a condition that
raises is modelled by returning `Except.error`.  `is_active` is set to `True`
by the constructor, but we keep it as a field since callers may mutate it. -/
structure Workflow (Ctx Cfg : Type) where
  id : Int
  name : String
  triggerType : TriggerType
  actions : List (Action Cfg)
  condition : Option (Ctx → Except String Bool)
  description : Option String
  isActive : Bool

/-- Embedding of the result dict built by `Workflow.execute`
(workflow_engine.py, lines 87-94).  The `executed_at` timestamp is wall-clock
time and is dropped from the model; `actions` holds the
`{action_type, result}` outcome entries in order. -/
structure ExecResult (Res : Type) where
  workflowId : Int
  workflowName : String
  actions : List (String × Res)
  success : Bool
  errors : List String
  deriving Repr

/-- A handler registry: `action_handlers.get(action.type)`
(workflow_engine.py, line 98).  A handler models
`handler.execute(context, config)`, raising being `Except.error`. -/
def HandlerMap (Ctx Cfg Res : Type) : Type :=
  String → Option (Ctx → Cfg → Except String Res)

/-- One iteration of the action loop of `Workflow.execute`
(workflow_engine.py, lines 96-111): look up the handler; on success append an
outcome entry; on a raised error set `success := false` and append the message
to `errors`; with no handler append the missing-handler message to `errors`. -/
def execStep {Ctx Cfg Res : Type} (handlers : HandlerMap Ctx Cfg Res) (context : Ctx)
    (r : ExecResult Res) (a : Action Cfg) : ExecResult Res :=
  match handlers a.type with
  | some h =>
    match h context a.config with
    | Except.ok v => { r with actions := r.actions ++ [(a.type, v)] }
    | Except.error e => { r with success := false, errors := r.errors ++ [e] }
  | none => { r with errors := r.errors ++ ["No handler found for action: " ++ a.type] }

/-- Embedding of `Workflow.execute` (workflow_engine.py, lines 85-113). -/
def Workflow.execute {Ctx Cfg Res : Type} (w : Workflow Ctx Cfg) (context : Ctx)
    (handlers : HandlerMap Ctx Cfg Res) : ExecResult Res :=
  w.actions.foldl (execStep handlers context) ⟨w.id, w.name, [], true, []⟩

/-- The action loop run from a blank report; used to state how a slice of the
action list contributes to the final report. -/
def runActions {Ctx Cfg Res : Type} (handlers : HandlerMap Ctx Cfg Res) (context : Ctx)
    (acts : List (Action Cfg)) : ExecResult Res :=
  acts.foldl (execStep handlers context) ⟨0, "", [], true, []⟩

/-- Embedding of `Workflow.check_condition` (workflow_engine.py, lines 79-83):
no condition means `True`; the Python call `self.condition(context)` may raise,
which the caller `execute_trigger` does not guard against. -/
def Workflow.checkCondition {Ctx Cfg : Type} (w : Workflow Ctx Cfg) (context : Ctx) :
    Except String Bool :=
  match w.condition with
  | some c => c context
  | none => Except.ok true

/-- Embedding of the `WorkflowEngine` state (workflow_engine.py, lines 24-42):
the registered workflow list and the action-handler registry.  The trigger
registry is never read by the dispatch path and is omitted. -/
structure WorkflowEngine (Ctx Cfg Res : Type) where
  workflows : List (Workflow Ctx Cfg)
  actions : HandlerMap Ctx Cfg Res

/-- Embedding of `WorkflowEngine.execute_trigger` (workflow_engine.py, lines
44-54).  The loop body checks trigger type and active flag, then evaluates the
condition; an exception raised by the condition is not caught anywhere in the
loop, so it propagates, which the `Except` monad models by short-circuiting. -/
def WorkflowEngine.executeTrigger {Ctx Cfg Res : Type} (eng : WorkflowEngine Ctx Cfg Res)
    (triggerType : TriggerType) (context : Ctx) : Except String (List (ExecResult Res)) :=
  eng.workflows.foldlM (fun results w =>
    if w.triggerType = triggerType ∧ w.isActive = true then
      match w.checkCondition context with
      | Except.error e => Except.error e
      | Except.ok b =>
        if b then Except.ok (results ++ [w.execute context eng.actions])
        else Except.ok results
    else Except.ok results) []

/-- Pointwise combination of two reports: outcomes and errors concatenate and
success conjoins.  Identity and name come from the first report. -/
def mergeExec {Res : Type} (r s : ExecResult Res) : ExecResult Res :=
  ⟨r.workflowId, r.workflowName, r.actions ++ s.actions, r.success && s.success,
    r.errors ++ s.errors⟩

/-- A small registry: `a1` and `a3` succeed, `bad` raises `boom`. -/
def demoHandlers : HandlerMap Unit Unit String := fun t =>
  if t = "a1" then some (fun _ _ => Except.ok "r1")
  else if t = "bad" then some (fun _ _ => Except.error "boom")
  else if t = "a3" then some (fun _ _ => Except.ok "r3")
  else none

/-- A 3-action workflow whose middle action raises (spec section 8, property 4). -/
def demoWf : Workflow Unit Unit :=
  ⟨1, "demo", TriggerType.manual, [⟨"a1", ()⟩, ⟨"bad", ()⟩, ⟨"a3", ()⟩], none, none, true⟩

/-- A workflow with a single action of unknown type (spec section 8, scenario 9). -/
def demoUnknownWf : Workflow Unit Unit :=
  ⟨7, "unknown-demo", TriggerType.manual, [⟨"unknown_action", ()⟩], none, none, true⟩

/-- An empty registry. -/
def noHandlers : HandlerMap Unit Unit String := fun _ => none

/-- A workflow whose condition raises `boom` when evaluated. -/
def demoBadCondWf : Workflow Unit Unit :=
  ⟨10, "bad-cond", TriggerType.manual, [⟨"a1", ()⟩],
    some (fun _ => Except.error "boom"), none, true⟩

/-- A healthy workflow listening on the same trigger. -/
def demoGoodWf : Workflow Unit Unit :=
  ⟨11, "good", TriggerType.manual, [⟨"a1", ()⟩], none, none, true⟩

/-- An engine holding the raising-condition workflow before a healthy one. -/
def demoEngine : WorkflowEngine Unit Unit String :=
  ⟨[demoBadCondWf, demoGoodWf], demoHandlers⟩

/-- Embedding of `NotificationEventType` (notification_rules.py, lines 10-20). -/
inductive NotificationEventType where
  | taskDue
  | taskOverdue
  | paymentDue
  | paymentOverdue
  | newInquiry
  | quotationApproved
  | contractSigned
  | projectMilestone
  | aiUsageLimit
  deriving DecidableEq, Repr

/-- The context dictionary read by the default notification predicates: one
field per key the lambdas in `DEFAULT_RULES` access.  `get('progress', 0)` and
`get('monthly_cost', 0)` default to `0`, so those fields are plain `Int`. -/
structure NotifCtx where
  status : Option String
  dueDate : Option String
  clientSignature : Option String
  progress : Int
  monthlyCost : Int

/-- Python truthiness of an optional string: `None` and the empty string are
falsy. -/
def truthyStr : Option String → Bool
  | none => false
  | some s => s != ""

/-- Embedding of `NotificationRule.__init__` (notification_rules.py, lines
23-41).  The predicate returns the truthiness of whatever the Python lambda
returns. -/
structure NotificationRule where
  eventType : NotificationEventType
  name : String
  description : String
  defaultEnabled : Bool
  emailDefault : Bool
  pushDefault : Bool
  reminderHours : List Int
  handler : Option (NotifCtx → Bool)

/-- Embedding of `NotificationRule.should_notify` (notification_rules.py,
lines 43-47): `True` when no handler is set. -/
def NotificationRule.shouldNotify (r : NotificationRule) (ctx : NotifCtx) : Bool :=
  match r.handler with
  | some h => h ctx
  | none => true

/-- `DEFAULT_RULES[0]` (notification_rules.py, lines 52-60). -/
def taskDueRule : NotificationRule :=
  ⟨NotificationEventType.taskDue, "태스크 마감 알림", "태스크 마감일 1일 전, 당일 알림",
    true, false, true, [24, 0],
    some fun ctx => ctx.status != some "done"⟩

/-- `DEFAULT_RULES[1]` (notification_rules.py, lines 62-72): the lambda is
`ctx.get('due_date') and ctx.get('status') not in ['done', 'completed']`. -/
def taskOverdueRule : NotificationRule :=
  ⟨NotificationEventType.taskOverdue, "태스크 연체 알림", "마감일 지난 미완료 태스크 알림",
    true, true, true, [],
    some fun ctx =>
      truthyStr ctx.dueDate &&
        !(ctx.status == some "done" || ctx.status == some "completed")⟩

/-- `DEFAULT_RULES[2]` (notification_rules.py, lines 74-82). -/
def paymentDueRule : NotificationRule :=
  ⟨NotificationEventType.paymentDue, "결제일 알림", "결제일 3일 전, 당일 알림",
    true, true, true, [72, 24, 0],
    some fun ctx => ctx.status == some "pending"⟩

/-- `DEFAULT_RULES[3]` (notification_rules.py, lines 84-91). -/
def paymentOverdueRule : NotificationRule :=
  ⟨NotificationEventType.paymentOverdue, "결제 연체 알림", "결제일 지난 미납 알림",
    true, true, true, [],
    some fun ctx => ctx.status == some "pending"⟩

/-- `DEFAULT_RULES[4]` (notification_rules.py, lines 93-100). -/
def newInquiryRule : NotificationRule :=
  ⟨NotificationEventType.newInquiry, "새 문의 알림", "새로운 고객 문의 도착 시 알림",
    true, true, true, [],
    some fun ctx => ctx.status == some "new"⟩

/-- `DEFAULT_RULES[5]` (notification_rules.py, lines 102-109). -/
def quotationApprovedRule : NotificationRule :=
  ⟨NotificationEventType.quotationApproved, "견적 승인 알림", "고객이 견적을 승인했을 때 알림",
    true, true, true, [],
    some fun ctx => ctx.status == some "approved"⟩

/-- `DEFAULT_RULES[6]` (notification_rules.py, lines 111-118): the Python test
is `is not None`, so an empty-string signature still counts. -/
def contractSignedRule : NotificationRule :=
  ⟨NotificationEventType.contractSigned, "계약 서명 알림", "계약서가 서명되었을 때 알림",
    true, true, true, [],
    some fun ctx => ctx.clientSignature != none⟩

/-- `DEFAULT_RULES[7]` (notification_rules.py, lines 120-127). -/
def projectMilestoneRule : NotificationRule :=
  ⟨NotificationEventType.projectMilestone, "프로젝트 마일스톤 알림",
    "프로젝트 진행률 25%, 50%, 75%, 100% 도달 시 알림",
    true, false, true, [],
    some fun ctx => [(25 : Int), 50, 75, 100].contains ctx.progress⟩

/-- `DEFAULT_RULES[8]` (notification_rules.py, lines 129-136). -/
def aiUsageLimitRule : NotificationRule :=
  ⟨NotificationEventType.aiUsageLimit, "AI 사용량 알림", "월간 AI 사용량 $50 도달 시 알림",
    true, true, false, [],
    some fun ctx => decide (ctx.monthlyCost ≥ 50)⟩

/-- Embedding of `DEFAULT_RULES` (notification_rules.py, lines 51-137). -/
def DEFAULT_RULES : List NotificationRule :=
  [taskDueRule, taskOverdueRule, paymentDueRule, paymentOverdueRule, newInquiryRule,
    quotationApprovedRule, contractSignedRule, projectMilestoneRule, aiUsageLimitRule]

/-- Embedding of `get_rule` (notification_rules.py, lines 140-145): linear
scan returning the first rule with the wanted event type. -/
def getRule (eventType : NotificationEventType) : Option NotificationRule :=
  DEFAULT_RULES.find? fun r => r.eventType == eventType

/-- Embedding of `check_and_notify` (notification_rules.py, lines 153-174).
The actual notification delivery is an out-of-scope side effect; the return
value is `True` exactly when the rule fired. -/
def checkAndNotify (eventType : NotificationEventType) (ctx : NotifCtx) : Bool :=
  match getRule eventType with
  | none => false
  | some rule => if !rule.defaultEnabled then false else rule.shouldNotify ctx

/-- Claim-side comparison predicate, written from the words of the spec table
row for task.overdue (`due_date < now AND status not in {done}`), to be
compared with the predicate the code actually installs.  ISO datetime strings
compare chronologically, so string comparison is faithful. -/
def claimOverduePredicate (now : String) (ctx : NotifCtx) : Bool :=
  (match ctx.dueDate with
   | some dd => decide (dd < now)
   | none => false) && !(ctx.status == some "done")

/-- The context dictionary read by the template conditions. -/
structure WfCtx where
  progress : Int

/-- Config maps in the templates are string-valued dictionaries. -/
def TemplateCfg : Type := List (String × String)

/-- `WorkflowTemplates.quotation_to_contract` (workflow_templates.py, 17-41). -/
def quotationToContract : Workflow WfCtx TemplateCfg :=
  ⟨1, "견적 승인 시 계약서 생성", TriggerType.quotationApproved,
    [⟨"send_notification",
      [("title", "견적 승인 알림"), ("message", "견적이 승인되었습니다. 계약서를 생성하세요."),
        ("notification_type", "quotation_approved")]⟩,
      ⟨"update_status", [("entity_type", "quotation"), ("status", "ready_for_contract")]⟩],
    none, some "견적이 승인되면 계약서 생성을 알리고 상태를 변경합니다.", true⟩

/-- `WorkflowTemplates.contract_signed_to_project` (workflow_templates.py, 44-69). -/
def contractSignedToProject : Workflow WfCtx TemplateCfg :=
  ⟨2, "계약 서명 시 프로젝트 시작", TriggerType.contractSigned,
    [⟨"create_task",
      [("title", "프로젝트 킥오프 미팅"), ("description", "고객과 프로젝트 시작 미팅 진행"),
        ("priority", "high")]⟩,
      ⟨"send_notification",
        [("title", "프로젝트 시작 알림"), ("message", "계약이 체결되었습니다. 프로젝트를 시작하세요."),
          ("notification_type", "project_start")]⟩],
    none, some "계약이 서명되면 킥오프 태스크를 생성하고 알림을 보냅니다.", true⟩

/-- `WorkflowTemplates.payment_received` (workflow_templates.py, 72-96). -/
def paymentReceivedTemplate : Workflow WfCtx TemplateCfg :=
  ⟨3, "결제 입금 알림", TriggerType.paymentReceived,
    [⟨"send_notification",
      [("title", "결제 입금 확인"), ("message", "결제가 입금되었습니다."),
        ("notification_type", "payment_received")]⟩,
      ⟨"update_status", [("entity_type", "payment"), ("status", "paid")]⟩],
    none, some "결제가 입금되면 상태를 변경하고 알림을 보냅니다.", true⟩

/-- `WorkflowTemplates.inquiry_auto_reply` (workflow_templates.py, 99-116). -/
def inquiryAutoReply : Workflow WfCtx TemplateCfg :=
  ⟨4, "문의 자동 응대", TriggerType.inquiryCreated,
    [⟨"send_notification",
      [("title", "새 문의 도착"), ("message", "새로운 프로젝트 문의가 도착했습니다."),
        ("notification_type", "new_inquiry")]⟩],
    none, some "새 문의가 도착하면 담당자에게 알림을 보냅니다.", true⟩

/-- `WorkflowTemplates.task_progress_calculation` (workflow_templates.py, 119-134). -/
def taskProgressCalculation : Workflow WfCtx TemplateCfg :=
  ⟨5, "프로젝트 진행률 자동 계산", TriggerType.taskCompleted,
    [⟨"calculate_value", [("type", "project_progress")]⟩],
    none, some "태스크가 완료되면 프로젝트 진행률을 자동으로 계산합니다.", true⟩

/-- `WorkflowTemplates.project_completion_workflow` (workflow_templates.py,
137-146): note the empty `actions` list in the source. -/
def projectCompletionWorkflow : Workflow WfCtx TemplateCfg :=
  ⟨6, "프로젝트 완료 처리", TriggerType.projectCreated, [],
    some (fun ctx => Except.ok (decide (ctx.progress ≥ 100))),
    some "프로젝트가 100% 완료되면 완료 처리를 합니다.", true⟩

/-- `WorkflowTemplates.all_templates` together with `init_default_workflows`
(workflow_templates.py, 149-163). -/
def initDefaultWorkflows : List (Workflow WfCtx TemplateCfg) :=
  [quotationToContract, contractSignedToProject, paymentReceivedTemplate,
    inquiryAutoReply, taskProgressCalculation, projectCompletionWorkflow]

/-- Embedding of a `calendar_events` row as read by `EventConflictChecker`
(calendar_manager.py): times are minutes (ISO datetime strings compare
chronologically); a `NULL` or empty date is `none`; `all_day` is the
truthiness of the stored flag. -/
structure CalEvent where
  id : Int
  startDate : Option Int
  endDate : Option Int
  allDay : Bool
  deriving DecidableEq, Repr

/-- The interval test on line 266 of calendar_manager.py:
`not (end < event_start or start > event_end)`. -/
def overlaps (s1 e1 s2 e2 : Int) : Bool :=
  !(decide (e1 < s2) || decide (s1 > e2))

/-- One iteration of the loop of `EventConflictChecker.check_conflict`
(calendar_manager.py, lines 255-267): skip the event when
`exclude_event_id and event.id == exclude_event_id` (int truthiness, so a
zero exclude id never excludes), skip events without a start date, default a
missing end date to the start, and append the event when the intervals
overlap. -/
def conflictSkip (excludeEventId : Option Int) (ev : CalEvent) : Bool :=
  match excludeEventId with
  | some v => decide (v ≠ 0) && decide (ev.id = v)
  | none => false

def conflictStep (startDate : Int) (endDate excludeEventId : Option Int)
    (conflicts : List CalEvent) (ev : CalEvent) : List CalEvent :=
  if conflictSkip excludeEventId ev then
    conflicts
  else
    match ev.startDate with
    | none => conflicts
    | some es =>
      if overlaps startDate (endDate.getD startDate) es (ev.endDate.getD es) then
        conflicts ++ [ev]
      else conflicts

/-- Embedding of `EventConflictChecker.check_conflict` (calendar_manager.py,
lines 246-269); the event list stands for `self.db.get_all_events()`. -/
def checkConflict (events : List CalEvent) (startDate : Int)
    (endDate excludeEventId : Option Int) : List CalEvent :=
  events.foldl (conflictStep startDate endDate excludeEventId) []

/-- The predicate under which `check_conflict` retains an event. -/
def conflictKeep (startDate : Int) (endDate excludeEventId : Option Int)
    (ev : CalEvent) : Bool :=
  !(conflictSkip excludeEventId ev) &&
    match ev.startDate with
    | none => false
    | some es => overlaps startDate (endDate.getD startDate) es (ev.endDate.getD es)

/-- Claim-side conflict check following the claim's words (refinement
comparison): the event whose id equals the exclude id is excluded, and an
all-day or end-less event is treated as the point interval equal to its
start. -/
def claimConflicts (events : List CalEvent) (startDate : Int)
    (endDate excludeEventId : Option Int) : List CalEvent :=
  events.filter fun ev =>
    !(excludeEventId == some ev.id) &&
      match ev.startDate with
      | none => false
      | some es =>
        overlaps startDate (endDate.getD startDate) es
          (if ev.allDay || ev.endDate == none then es else ev.endDate.getD es)

/-- The half-hour grid of `find_available_slots` (calendar_manager.py, lines
277-284): cell start times in minutes, two cells per hour over
`[work_start, work_end)`. -/
def gridCells (workStart workEnd : Int) : List Int :=
  (List.range (workEnd - workStart).toNat).flatMap fun h =>
    [(workStart + (h : Int)) * 60, (workStart + (h : Int)) * 60 + 30]

/-- The (start, end) pairs of the non-all-day events, as parsed by the
marking loop (calendar_manager.py, lines 287-292).  Database rows always
carry both date columns, so `datetime.fromisoformat` raises (modelled by
`none`) whenever a non-all-day event has a `NULL` start or end date. -/
def timedIntervals (events : List CalEvent) : Option (List (Int × Int)) :=
  (events.filter fun ev => !ev.allDay).mapM fun ev =>
    match ev.startDate, ev.endDate with
    | some es, some ee => some (es, ee)
    | _, _ => none

/-- Availability of one grid cell after the marking loop (calendar_manager.py,
lines 294-299): a cell `[c, c+30)` is marked unavailable by an event iff
`slot_time < event_end and slot_end > event_start`. -/
def cellFree (ivs : List (Int × Int)) (c : Int) : Bool :=
  ivs.all fun iv => !(decide (c < iv.2) && decide (c + 30 > iv.1))

/-- The grid paired with its availability bits. -/
def gridPairs (ivs : List (Int × Int)) (workStart workEnd : Int) : List (Int × Bool) :=
  (gridCells workStart workEnd).map fun c => (c, cellFree ivs c)

/-- End of the grid: the start of the last cell plus 30 minutes
(`slots[-1]['time'] + 30` in the final check, calendar_manager.py lines
317-322); the Python code only reads it when the grid is non-empty. -/
def gridEnd (workStart workEnd : Int) : Int :=
  match (gridCells workStart workEnd).getLast? with
  | some t => t + 30
  | none => 0

/-- One iteration of the grouping loop (calendar_manager.py, lines 301-315):
the state is the emitted starts so far plus the start of the current run of
available cells, if any. -/
def scanStep (d : Int) (st : List Int × Option Int) (cell : Int × Bool) :
    List Int × Option Int :=
  if cell.2 then (st.1, some (st.2.getD cell.1))
  else
    match st.2 with
    | some c => ((if cell.1 - c ≥ d then st.1 ++ [c] else st.1), none)
    | none => (st.1, none)

/-- The final check after the loop (calendar_manager.py, lines 317-322):
a still-open run is emitted when it reaches the end of the grid with enough
length. -/
def finalizeScan (d g : Int) (st : List Int × Option Int) : List Int :=
  match st.2 with
  | some c => if g - c ≥ d then st.1 ++ [c] else st.1
  | none => st.1

/-- Embedding of `EventConflictChecker.find_available_slots`
(calendar_manager.py, lines 271-324); the event list stands for
`self.db.get_events_by_date(date)` and slot times are minutes from midnight
of that date.  `none` models the `TypeError` raised when a non-all-day event
has a missing date. -/
def findAvailableSlots (events : List CalEvent)
    (durationMinutes workStart workEnd : Int) : Option (List Int) :=
  match timedIntervals events with
  | none => none
  | some ivs =>
    some (finalizeScan durationMinutes (gridEnd workStart workEnd)
      ((gridPairs ivs workStart workEnd).foldl (scanStep durationMinutes) ([], none)))

/-- First unavailable cell after the current position, or the grid end: the
time at which the run containing the current position stops. -/
def runStop (g : Int) (rest : List (Int × Bool)) : Int :=
  match rest.head? with
  | some p => p.1
  | none => g

/-- Claim-side description of the slot search (refinement comparison,
following the claim's words): scan the grid left to right, form maximal
contiguous runs of available cells, and emit exactly one candidate per run —
the first cell of the run — iff the run's length in minutes (the distance
from its first cell to the cell after the run, or to the grid end) is at
least the duration. -/
def slotsOfRuns (d g : Int) : List (Int × Bool) → List Int
  | [] => []
  | (t, true) :: rest =>
    (if runStop g (rest.dropWhile fun p => p.2) - t ≥ d then [t] else []) ++
      slotsOfRuns d g (rest.dropWhile fun p => p.2)
  | (_, false) :: rest => slotsOfRuns d g rest
termination_by l => l.length
decreasing_by
  · have h : (rest.dropWhile fun p : Int × Bool => p.2).length ≤ rest.length :=
      (List.dropWhile_sublist _).length_le
    simp only [List.length_cons]
    omega
  · simp only [List.length_cons]
    omega

/-- A day with a single timed 09:00-10:00 event (scenario 8 of the spec). -/
def demoDayEvent : CalEvent := ⟨1, some 540, some 600, false⟩

/-! ## Theorems -/

theorem execStep_eq_merge {Ctx Cfg Res : Type} (handlers : HandlerMap Ctx Cfg Res)
    (context : Ctx) (r : ExecResult Res) (a : Action Cfg) :
    execStep handlers context r a =
      mergeExec r (execStep handlers context ⟨0, "", [], true, []⟩ a) := by
  unfold execStep
  cases hha : handlers a.type with
  | none => simp [mergeExec]
  | some h =>
    cases hhc : h context a.config with
    | ok v => simp [mergeExec, hhc]
    | error e => simp [mergeExec, hhc]

theorem mergeExec_assoc {Res : Type} (r s t : ExecResult Res) :
    mergeExec (mergeExec r s) t = mergeExec r (mergeExec s t) := by
  simp [mergeExec, List.append_assoc, Bool.and_assoc]

theorem foldl_execStep_merge {Ctx Cfg Res : Type} (handlers : HandlerMap Ctx Cfg Res)
    (context : Ctx) :
    ∀ (l : List (Action Cfg)) (r : ExecResult Res),
      l.foldl (execStep handlers context) r = mergeExec r (runActions handlers context l) := by
  intro l
  induction l with
  | nil =>
    intro r
    simp [runActions, mergeExec]
  | cons a tl ih =>
    intro r
    have h2 : runActions handlers context (a :: tl) =
        mergeExec (execStep handlers context ⟨0, "", [], true, []⟩ a)
          (runActions handlers context tl) := by
      unfold runActions
      rw [List.foldl_cons]
      exact ih _
    rw [List.foldl_cons, ih, h2, execStep_eq_merge, mergeExec_assoc]

theorem runActions_cons {Ctx Cfg Res : Type} (handlers : HandlerMap Ctx Cfg Res)
    (context : Ctx) (a : Action Cfg) (tl : List (Action Cfg)) :
    runActions handlers context (a :: tl) =
      mergeExec (execStep handlers context ⟨0, "", [], true, []⟩ a)
        (runActions handlers context tl) := by
  unfold runActions
  rw [List.foldl_cons]
  exact foldl_execStep_merge handlers context tl _

theorem runActions_append {Ctx Cfg Res : Type} (handlers : HandlerMap Ctx Cfg Res)
    (context : Ctx) (l1 l2 : List (Action Cfg)) :
    runActions handlers context (l1 ++ l2) =
      mergeExec (runActions handlers context l1) (runActions handlers context l2) := by
  unfold runActions
  rw [List.foldl_append]
  exact foldl_execStep_merge handlers context l2 _

theorem execute_eq_runActions {Ctx Cfg Res : Type} (w : Workflow Ctx Cfg) (context : Ctx)
    (handlers : HandlerMap Ctx Cfg Res) :
    w.execute context handlers =
      ⟨w.id, w.name, (runActions handlers context w.actions).actions,
        (runActions handlers context w.actions).success,
        (runActions handlers context w.actions).errors⟩ := by
  unfold Workflow.execute
  rw [foldl_execStep_merge]
  simp [mergeExec]

theorem execStep_blank_count {Ctx Cfg Res : Type} (handlers : HandlerMap Ctx Cfg Res)
    (context : Ctx) (a : Action Cfg) :
    (execStep handlers context (⟨0, "", [], true, []⟩ : ExecResult Res) a).actions.length +
      (execStep handlers context (⟨0, "", [], true, []⟩ : ExecResult Res) a).errors.length = 1 := by
  unfold execStep
  cases hha : handlers a.type with
  | none => simp
  | some h =>
    cases hhc : h context a.config with
    | ok v => simp [hhc]
    | error e => simp [hhc]

theorem runActions_count {Ctx Cfg Res : Type} (handlers : HandlerMap Ctx Cfg Res)
    (context : Ctx) :
    ∀ l : List (Action Cfg),
      (runActions handlers context l).actions.length +
        (runActions handlers context l).errors.length = l.length := by
  intro l
  induction l with
  | nil => simp [runActions]
  | cons a tl ih =>
    rw [runActions_cons]
    have : (execStep handlers context (⟨0, "", [], true, []⟩ : ExecResult Res) a).actions.length +
        (execStep handlers context (⟨0, "", [], true, []⟩ : ExecResult Res) a).errors.length = 1 :=
      execStep_blank_count handlers context a
    simp only [mergeExec, List.length_append, List.length_cons]
    omega

/-- C1: if the handler of some action raises during `Workflow.execute`, the
message is appended to the report errors in position, the success flag is
false, and every subsequent action is still attempted, contributing exactly
the outcomes and errors it would contribute on its own: a handler failure
never short-circuits execution of the remaining actions. -/
theorem handler_failure_does_not_short_circuit {Ctx Cfg Res : Type}
    (handlers : HandlerMap Ctx Cfg Res) (context : Ctx) (w : Workflow Ctx Cfg)
    (pre post : List (Action Cfg)) (a : Action Cfg)
    (f : Ctx → Cfg → Except String Res) (e : String)
    (hacts : w.actions = pre ++ a :: post)
    (hf : handlers a.type = some f)
    (herr : f context a.config = Except.error e) :
    (w.execute context handlers).success = false ∧
    (w.execute context handlers).errors =
      (runActions handlers context pre).errors ++
        e :: (runActions handlers context post).errors ∧
    (w.execute context handlers).actions =
      (runActions handlers context pre).actions ++
        (runActions handlers context post).actions := by
  rw [execute_eq_runActions, hacts, runActions_append, runActions_cons]
  have hstep : execStep handlers context (⟨0, "", [], true, []⟩ : ExecResult Res) a =
      ⟨0, "", [], false, [e]⟩ := by
    simp [execStep, hf, herr]
  rw [hstep]
  simp [mergeExec]

/-- C1 witness: the 3-action scenario where the middle handler raises. -/
theorem handler_failure_does_not_short_circuit_witness :
    (demoWf.execute () demoHandlers).success = false ∧
    (demoWf.execute () demoHandlers).errors =
      (runActions demoHandlers () [⟨"a1", ()⟩]).errors ++
        "boom" :: (runActions demoHandlers () [⟨"a3", ()⟩]).errors ∧
    (demoWf.execute () demoHandlers).actions =
      (runActions demoHandlers () [⟨"a1", ()⟩]).actions ++
        (runActions demoHandlers () [⟨"a3", ()⟩]).actions :=
  handler_failure_does_not_short_circuit demoHandlers () demoWf
    [⟨"a1", ()⟩] [⟨"a3", ()⟩] ⟨"bad", ()⟩
    (fun _ _ => Except.error "boom") "boom" rfl rfl rfl

/-- C2 counterexample: the missing-handler message produced by the code starts
with a capital `No`, so the exact string claimed by the spec
(`no handler found for action: unknown_action`, lowercase) is never the one
appended: on a one-action workflow of unknown type the errors list is
`[No handler found for action: unknown_action]`, which differs from the
claimed exact string. -/
theorem missing_handler_exact_string_cex :
    (demoUnknownWf.execute () noHandlers).errors =
      ["No handler found for action: unknown_action"] ∧
    (["No handler found for action: unknown_action"] : List String) ≠
      ["no handler found for action: unknown_action"] := by
  refine ⟨rfl, ?_⟩
  decide

/-- C2 amended: for every action whose type has no registered handler, the
exact string `No handler found for action: <type>` (capital `N`) is appended
to the report errors, no outcome entry is added for that action, execution
continues with the next action, and the missing handler leaves the success
flag exactly as determined by the other actions (so by itself it keeps
success true). -/
theorem missing_handler_recorded_and_continues {Ctx Cfg Res : Type}
    (handlers : HandlerMap Ctx Cfg Res) (context : Ctx) (w : Workflow Ctx Cfg)
    (pre post : List (Action Cfg)) (a : Action Cfg)
    (hacts : w.actions = pre ++ a :: post)
    (hnone : handlers a.type = none) :
    (w.execute context handlers).errors =
      (runActions handlers context pre).errors ++
        ("No handler found for action: " ++ a.type) ::
          (runActions handlers context post).errors ∧
    (w.execute context handlers).actions =
      (runActions handlers context pre).actions ++
        (runActions handlers context post).actions ∧
    (w.execute context handlers).success =
      ((runActions handlers context pre).success &&
        (runActions handlers context post).success) := by
  rw [execute_eq_runActions, hacts, runActions_append, runActions_cons]
  have hstep : execStep handlers context (⟨0, "", [], true, []⟩ : ExecResult Res) a =
      ⟨0, "", [], true, ["No handler found for action: " ++ a.type]⟩ := by
    simp [execStep, hnone]
  rw [hstep]
  simp [mergeExec]

/-- C2 amended witness: dispatching the single unknown action appends exactly
one missing-handler error, adds no outcome, and leaves success true. -/
theorem missing_handler_recorded_and_continues_witness :
    (demoUnknownWf.execute () noHandlers).errors =
      (runActions noHandlers () []).errors ++
        ("No handler found for action: " ++ "unknown_action") ::
          (runActions noHandlers () []).errors ∧
    (demoUnknownWf.execute () noHandlers).actions =
      (runActions noHandlers () []).actions ++ (runActions noHandlers () []).actions ∧
    (demoUnknownWf.execute () noHandlers).success =
      ((runActions noHandlers () []).success && (runActions noHandlers () []).success) :=
  missing_handler_recorded_and_continues noHandlers () demoUnknownWf
    [] [] ⟨"unknown_action", ()⟩ rfl rfl

/-- C3 counterexample: in `execute_trigger` nothing guards the call to
`check_condition`, so a raising condition propagates out of dispatch: with a
raising-condition rule registered before a healthy rule, the whole dispatch
evaluates to the exception instead of a report list, no configuration-level
error is recorded anywhere, and the healthy rule (which on its own would
produce the outcome listed in the second conjunct) is never executed. -/
theorem condition_error_aborts_dispatch_cex :
    demoEngine.executeTrigger TriggerType.manual () = Except.error "boom" ∧
    (demoGoodWf.execute () demoHandlers).actions = [("a1", "r1")] := by
  constructor
  · rfl
  · rfl

/-- C3 amended: if the condition of an active, trigger-matching rule raises
during dispatch, the exception propagates out of `execute_trigger`: the
result is the error itself, no per-rule error is recorded, and the rules
after it are neither evaluated nor executed. -/
theorem condition_error_propagates {Ctx Cfg Res : Type}
    (handlers : HandlerMap Ctx Cfg Res) (context : Ctx) (w : Workflow Ctx Cfg)
    (rest : List (Workflow Ctx Cfg)) (triggerType : TriggerType) (e : String)
    (htrig : w.triggerType = triggerType) (hact : w.isActive = true)
    (hcond : w.checkCondition context = Except.error e) :
    WorkflowEngine.executeTrigger ⟨w :: rest, handlers⟩ triggerType context =
      Except.error e := by
  unfold WorkflowEngine.executeTrigger
  simp [List.foldlM, htrig, hact, hcond]
  rfl

/-- C3 amended witness: the raising-condition workflow aborts the demo
dispatch with its exception. -/
theorem condition_error_propagates_witness :
    WorkflowEngine.executeTrigger ⟨demoBadCondWf :: [demoGoodWf], demoHandlers⟩
      TriggerType.manual () = Except.error "boom" :=
  condition_error_propagates demoHandlers () demoBadCondWf [demoGoodWf]
    TriggerType.manual "boom" rfl rfl rfl

/-- C7: executing a workflow over its N configured actions produces a report
with `len(outcomes) + len(errors) = N`: each configured action contributes
exactly one record, an outcome entry when its handler was found and returned
and an error entry otherwise. -/
theorem outcome_completeness {Ctx Cfg Res : Type} (w : Workflow Ctx Cfg) (context : Ctx)
    (handlers : HandlerMap Ctx Cfg Res) :
    (w.execute context handlers).actions.length +
      (w.execute context handlers).errors.length = w.actions.length := by
  rw [execute_eq_runActions]
  exact runActions_count handlers context w.actions

theorem truthyStr_eq_true (o : Option String) :
    truthyStr o = true ↔ o ≠ none ∧ o ≠ some "" := by
  cases o with
  | none => simp [truthyStr]
  | some s => simp [truthyStr]

/-- C8 counterexample: the task.overdue predicate in the code only tests the
truthiness of `due_date`, never comparing it with the current time, and it
also excludes status `completed`.  A task due far in the future
(`2099-01-01`) with status `todo` makes the code predicate fire although the
claimed predicate `due_date < now AND status not in {done}` is false at any
present-day `now`. -/
theorem task_overdue_predicate_cex :
    taskOverdueRule.shouldNotify ⟨some "todo", some "2099-01-01 00:00:00", none, 0, 0⟩ = true ∧
    claimOverduePredicate "2025-10-12 00:00:00"
      ⟨some "todo", some "2099-01-01 00:00:00", none, 0, 0⟩ = false := by
  refine ⟨rfl, ?_⟩
  have h : ¬ (("2099-01-01 00:00:00" : String) < "2025-10-12 00:00:00") := by
    simp
    decide
  simp [claimOverduePredicate, h]

/-- C8 amended: the default task.overdue rule is enabled with both email and
push on and has no reminder offsets, and its predicate returns true for a
context exactly when `due_date` is present and truthy and the status is in
neither `done` nor `completed`; the current time plays no role. -/
theorem task_overdue_rule_spec :
    getRule NotificationEventType.taskOverdue = some taskOverdueRule ∧
    taskOverdueRule.defaultEnabled = true ∧
    taskOverdueRule.emailDefault = true ∧
    taskOverdueRule.pushDefault = true ∧
    taskOverdueRule.reminderHours = [] ∧
    ∀ ctx : NotifCtx,
      taskOverdueRule.shouldNotify ctx = true ↔
        (ctx.dueDate ≠ none ∧ ctx.dueDate ≠ some "") ∧
          ctx.status ≠ some "done" ∧ ctx.status ≠ some "completed" := by
  refine ⟨rfl, rfl, rfl, rfl, rfl, ?_⟩
  intro ctx
  simp [NotificationRule.shouldNotify, taskOverdueRule, truthyStr_eq_true, not_or]

/-- C10: the notification matcher returns false when no rule exists for the
event type or the rule is disabled, and otherwise returns the boolean result
of the rule predicate on the context. -/
theorem check_and_notify_dispatch (eventType : NotificationEventType) (ctx : NotifCtx) :
    checkAndNotify eventType ctx =
      ((getRule eventType).map fun r => r.defaultEnabled && r.shouldNotify ctx).getD false := by
  unfold checkAndNotify
  cases hr : getRule eventType with
  | none => simp
  | some r =>
    cases he : r.defaultEnabled <;> simp [he]

/-- C9 counterexample: the sixth default template, the project-completion
workflow, is constructed with an empty `actions` list, so the claimed
invariant that every engine-held workflow (the default templates included)
has a non-empty action list fails on the default template set itself. -/
theorem default_template_empty_actions_cex :
    (initDefaultWorkflows.map fun w => w.actions.length) = [2, 2, 2, 1, 1, 0] ∧
    projectCompletionWorkflow.actions = ([] : List (Action TemplateCfg)) := by
  constructor
  · rfl
  · rfl

/-- C9 amended: every default template workflow except the project-completion
template (id 6, whose action list is empty) has a non-empty actions list; the
`Workflow` constructor itself enforces no such invariant. -/
theorem default_templates_nonempty_actions :
    ∀ w ∈ initDefaultWorkflows, w.id ≠ 6 → w.actions ≠ [] := by
  intro w hw hid
  simp only [initDefaultWorkflows, List.mem_cons, List.not_mem_nil, or_false] at hw
  rcases hw with h | h | h | h | h | h <;> subst h <;>
    simp_all [quotationToContract, contractSignedToProject, paymentReceivedTemplate,
      inquiryAutoReply, taskProgressCalculation, projectCompletionWorkflow]

/-- C9 amended witness: the first default template has a non-empty action
list. -/
theorem default_templates_nonempty_actions_witness :
    quotationToContract.actions ≠ [] :=
  default_templates_nonempty_actions quotationToContract
    (by simp [initDefaultWorkflows]) (by decide)

theorem foldl_conflictStep_filter (startDate : Int) (endDate excludeEventId : Option Int) :
    ∀ (l : List CalEvent) (acc : List CalEvent),
      l.foldl (conflictStep startDate endDate excludeEventId) acc =
        acc ++ l.filter (conflictKeep startDate endDate excludeEventId) := by
  intro l
  induction l with
  | nil => intro acc; simp
  | cons ev tl ih =>
    intro acc
    rw [List.foldl_cons]
    cases hskip : conflictSkip excludeEventId ev with
    | true =>
      have hstep : conflictStep startDate endDate excludeEventId acc ev = acc := by
        simp [conflictStep, hskip]
      have hkeep : conflictKeep startDate endDate excludeEventId ev = false := by
        simp [conflictKeep, hskip]
      rw [hstep, ih, List.filter_cons, hkeep]
      simp
    | false =>
      cases hsd : ev.startDate with
      | none =>
        have hstep : conflictStep startDate endDate excludeEventId acc ev = acc := by
          simp [conflictStep, hskip, hsd]
        have hkeep : conflictKeep startDate endDate excludeEventId ev = false := by
          simp [conflictKeep, hskip, hsd]
        rw [hstep, ih, List.filter_cons, hkeep]
        simp
      | some es =>
        cases hov : overlaps startDate (endDate.getD startDate) es (ev.endDate.getD es) with
        | true =>
          have hstep : conflictStep startDate endDate excludeEventId acc ev = acc ++ [ev] := by
            simp [conflictStep, hskip, hsd, hov]
          have hkeep : conflictKeep startDate endDate excludeEventId ev = true := by
            simp [conflictKeep, hskip, hsd, hov]
          rw [hstep, ih, List.filter_cons, hkeep]
          simp
        | false =>
          have hstep : conflictStep startDate endDate excludeEventId acc ev = acc := by
            simp [conflictStep, hskip, hsd, hov]
          have hkeep : conflictKeep startDate endDate excludeEventId ev = false := by
            simp [conflictKeep, hskip, hsd, hov]
          rw [hstep, ih, List.filter_cons, hkeep]
          simp

/-- C4 counterexample: two concrete divergences from the claim.  First, the
code ignores the all-day flag: an all-day event with an end date keeps its
full interval, so a point candidate inside that interval is reported as a
conflict although the claimed point-interval treatment reports none.  Second,
int truthiness makes a zero exclude id a no-op, so an event with id 0 is
returned even when exclude id 0 is supplied, while the claim excludes it. -/
theorem check_conflict_claim_cex :
    checkConflict [⟨1, some 50, some 150, true⟩] 100 none none =
      [⟨1, some 50, some 150, true⟩] ∧
    claimConflicts [⟨1, some 50, some 150, true⟩] 100 none none = [] ∧
    checkConflict [⟨0, some 100, some 200, false⟩] 100 none (some 0) =
      [⟨0, some 100, some 200, false⟩] ∧
    claimConflicts [⟨0, some 100, some 200, false⟩] 100 none (some 0) = [] := by
  refine ⟨rfl, rfl, rfl, rfl⟩

/-- C4 amended: for a candidate interval from `s` to the supplied end (or `s`
itself when no end is supplied), `check_conflict` returns exactly the events
that are not excluded (excluded means a nonzero exclude id equal to the event
id), have a start date, and whose interval — the end date defaulted to the
start when absent, the all-day flag playing no role — satisfies
`NOT (e < s2 OR s > e2)`; the overlap test is symmetric in the two intervals,
intervals that merely touch at a boundary count as conflicting, and every
overlapping event is returned, not just the first. -/
theorem check_conflict_spec :
    (∀ (events : List CalEvent) (startDate : Int) (endDate excludeEventId : Option Int),
      checkConflict events startDate endDate excludeEventId =
        events.filter (conflictKeep startDate endDate excludeEventId)) ∧
    (∀ a b c d : Int, overlaps a b c d = overlaps c d a b) ∧
    overlaps 600 660 660 720 = true ∧
    checkConflict [⟨2, some 600, some 660, false⟩] 630 (some 645) none =
      [⟨2, some 600, some 660, false⟩] := by
  refine ⟨?_, ?_, rfl, rfl⟩
  · intro events startDate endDate excludeEventId
    exact foldl_conflictStep_filter startDate endDate excludeEventId events []
  · intro a b c d
    unfold overlaps
    rw [Bool.or_comm]

theorem slotsOfRuns_nil (d g : Int) : slotsOfRuns d g [] = [] := by
  rw [slotsOfRuns]

theorem slotsOfRuns_cons_true (d g t : Int) (rest : List (Int × Bool)) :
    slotsOfRuns d g ((t, true) :: rest) =
      (if runStop g (rest.dropWhile fun p => p.2) - t ≥ d then [t] else []) ++
        slotsOfRuns d g (rest.dropWhile fun p => p.2) := by
  rw [slotsOfRuns]

theorem slotsOfRuns_cons_false (d g t : Int) (rest : List (Int × Bool)) :
    slotsOfRuns d g ((t, false) :: rest) = slotsOfRuns d g rest := by
  rw [slotsOfRuns]

/-- The imperative scan of the source equals the per-maximal-run description:
part (a) from a closed state, part (b) from a state inside a run started at
`c`. -/
theorem scan_eq_runs (d g : Int) :
    ∀ (l : List (Int × Bool)) (out : List Int),
      (finalizeScan d g (l.foldl (scanStep d) (out, none)) = out ++ slotsOfRuns d g l) ∧
      (∀ c : Int,
        finalizeScan d g (l.foldl (scanStep d) (out, some c)) =
          out ++ (if runStop g (l.dropWhile fun p => p.2) - c ≥ d then [c] else []) ++
            slotsOfRuns d g (l.dropWhile fun p => p.2)) := by
  intro l
  induction l with
  | nil =>
    intro out
    constructor
    · simp [finalizeScan, slotsOfRuns_nil]
    · intro c
      by_cases hc : g - c ≥ d <;> simp [finalizeScan, runStop, slotsOfRuns_nil, hc]
  | cons p tl ih =>
    intro out
    obtain ⟨t, a⟩ := p
    cases a with
    | true =>
      constructor
      · rw [List.foldl_cons]
        have hstep : scanStep d (out, none) (t, true) = (out, some t) := by
          simp [scanStep]
        rw [hstep, slotsOfRuns_cons_true]
        have := (ih out).2 t
        rw [this]
        simp [List.dropWhile_cons, List.append_assoc]
      · intro c
        rw [List.foldl_cons]
        have hstep : scanStep d (out, some c) (t, true) = (out, some c) := by
          simp [scanStep]
        rw [hstep]
        have := (ih out).2 c
        rw [this]
        simp [List.dropWhile_cons]
    | false =>
      constructor
      · rw [List.foldl_cons]
        have hstep : scanStep d (out, none) (t, false) = (out, none) := by
          simp [scanStep]
        rw [hstep, slotsOfRuns_cons_false]
        exact (ih out).1
      · intro c
        rw [List.foldl_cons]
        have hstep : scanStep d (out, some c) (t, false) =
            ((if t - c ≥ d then out ++ [c] else out), none) := by
          simp [scanStep]
        rw [hstep]
        have hdw : ((t, false) :: tl).dropWhile (fun p => p.2) = (t, false) :: tl := by
          simp [List.dropWhile_cons]
        rw [hdw, slotsOfRuns_cons_false]
        have hrs : runStop g ((t, false) :: tl) = t := by
          simp [runStop]
        rw [hrs]
        by_cases hc : t - c ≥ d
        · simp only [hc, if_true]
          rw [(ih (out ++ [c])).1]
        · simp only [hc, if_false]
          rw [(ih out).1]
          simp

/-- C6: whenever `find_available_slots` returns (the event dates parse), its
output is exactly the left-to-right scan that forms maximal contiguous runs
of available half-hour cells and emits one candidate per run — the run's
first cell — iff the run's length in minutes is at least the duration; and in
the concrete 09:00-10:00-event scenario with work hours 9-18 and duration 60
the first returned slot starts at 10:00 (minute 600). -/
theorem findAvailableSlots_eq_runs (events : List CalEvent) (d ws we : Int)
    (ivs : List (Int × Int)) (hiv : timedIntervals events = some ivs) :
    findAvailableSlots events d ws we =
      some (slotsOfRuns d (gridEnd ws we) (gridPairs ivs ws we)) := by
  have := (scan_eq_runs d (gridEnd ws we) (gridPairs ivs ws we) []).1
  simp only [findAvailableSlots, hiv, this, List.nil_append]

theorem find_available_slots_one_per_run :
    (∀ (events : List CalEvent) (d ws we : Int) (ivs : List (Int × Int)),
      timedIntervals events = some ivs →
      findAvailableSlots events d ws we =
        some (slotsOfRuns d (gridEnd ws we) (gridPairs ivs ws we))) ∧
    (findAvailableSlots [demoDayEvent] 60 9 18).map List.head? = some (some 600) := by
  constructor
  · intro events d ws we ivs hiv
    exact findAvailableSlots_eq_runs events d ws we ivs hiv
  · rfl

/-- C6 witness: the general equality applied to the concrete scenario. -/
theorem find_available_slots_one_per_run_witness :
    findAvailableSlots [demoDayEvent] 60 9 18 =
      some (slotsOfRuns 60 (gridEnd 9 18) (gridPairs [(540, 600)] 9 18)) :=
  find_available_slots_one_per_run.1 [demoDayEvent] 60 9 18 [(540, 600)] rfl

theorem range_flatMap_pairs (b : Int) :
    ∀ n : Nat,
      (List.range n).flatMap (fun h => [(b + (h : Int)) * 60, (b + (h : Int)) * 60 + 30]) =
        (List.range (2 * n)).map fun i : Nat => b * 60 + 30 * (i : Int) := by
  intro n
  induction n with
  | zero => simp
  | succ n ih =>
    have h2 : 2 * (n + 1) = (2 * n + 1) + 1 := by omega
    rw [List.range_succ, h2, List.range_succ, List.range_succ, List.flatMap_append, ih]
    simp only [List.flatMap_cons, List.flatMap_nil, List.map_append, List.map_cons,
      List.map_nil, List.append_nil, List.append_assoc]
    congr 1
    congr 1
    · push_cast
      ring
    congr 1
    · push_cast
      ring

theorem gridCells_shape (ws we : Int) :
    gridCells ws we =
      (List.range (2 * (we - ws).toNat)).map fun i : Nat => ws * 60 + 30 * (i : Int) := by
  unfold gridCells
  exact range_flatMap_pairs ws ((we - ws).toNat)

theorem gridEnd_eq (ws we : Int) (h : 0 < 2 * (we - ws).toNat) :
    gridEnd ws we = ws * 60 + 30 * ((2 * (we - ws).toNat : Nat) : Int) := by
  obtain ⟨m, hm⟩ : ∃ m, 2 * (we - ws).toNat = m + 1 := ⟨2 * (we - ws).toNat - 1, by omega⟩
  unfold gridEnd
  rw [gridCells_shape, hm, List.range_succ, List.map_append, List.map_cons, List.map_nil,
    List.getLast?_concat]
  push_cast
  ring

theorem range_map_getElem? {α : Type} (F : Nat → α) (n j : Nat) (hj : j < n) :
    ((List.range n).map F)[j]? = some (F j) := by
  simp [List.getElem?_map, List.getElem?_range, hj]

theorem mapM_option_mem {α β : Type} (g : α → Option β) :
    ∀ (l : List α) (res : List β), l.mapM g = some res →
      ∀ x ∈ l, ∀ y, g x = some y → y ∈ res := by
  intro l
  induction l with
  | nil =>
    intro res h x hx
    simp at hx
  | cons a tl ih =>
    intro res h x hx y hy
    rw [List.mapM_cons] at h
    cases hga : g a with
    | none => rw [hga] at h; simp at h
    | some b =>
      rw [hga] at h
      cases hmt : tl.mapM g with
      | none => rw [hmt] at h; simp at h
      | some bs =>
        rw [hmt] at h
        simp at h
        subst h
        rcases List.mem_cons.mp hx with rfl | hx2
        · rw [hga] at hy
          exact (Option.some.inj hy) ▸ List.mem_cons_self _ _
        · exact List.mem_cons_of_mem _ (ih bs hmt x hx2 y hy)

theorem timedIntervals_mem (events : List CalEvent) (ivs : List (Int × Int)) (ev : CalEvent)
    (hiv : timedIntervals events = some ivs) (hev : ev ∈ events) (hall : ev.allDay = false)
    (es ee : Int) (hes : ev.startDate = some es) (hee : ev.endDate = some ee) :
    (es, ee) ∈ ivs := by
  unfold timedIntervals at hiv
  have hf : ev ∈ events.filter fun e => !e.allDay := by
    rw [List.mem_filter]
    exact ⟨hev, by simp [hall]⟩
  exact mapM_option_mem _ _ _ hiv ev hf (es, ee) (by rw [hes, hee])

/-- Every emitted start is the head of a block of available cells that
reaches at least `d` minutes before the run stops. -/
theorem slots_mem_decomp (d g : Int) :
    ∀ (fuel : Nat) (l : List (Int × Bool)), l.length ≤ fuel → ∀ s : Int,
      s ∈ slotsOfRuns d g l →
      ∃ pre run post, l = pre ++ run ++ post ∧ run.head? = some (s, true) ∧
        (∀ p ∈ run, p.2 = true) ∧ runStop g post - s ≥ d := by
  intro fuel
  induction fuel with
  | zero =>
    intro l hl s hs
    have hnil : l = [] := List.length_eq_zero.mp (Nat.le_zero.mp hl)
    subst hnil
    rw [slotsOfRuns_nil] at hs
    simp at hs
  | succ fuel ih =>
    intro l hl s hs
    match l with
    | [] =>
      rw [slotsOfRuns_nil] at hs
      simp at hs
    | (t, false) :: rest =>
      rw [slotsOfRuns_cons_false] at hs
      obtain ⟨pre, run, post, hsplit, hhead, hrun, hstop⟩ :=
        ih rest (by simp at hl; omega) s hs
      exact ⟨(t, false) :: pre, run, post, by simp [hsplit], hhead, hrun, hstop⟩
    | (t, true) :: rest =>
      rw [slotsOfRuns_cons_true] at hs
      rcases List.mem_append.mp hs with h1 | h2
      · by_cases hc : runStop g (rest.dropWhile fun p => p.2) - t ≥ d
        · have hst : s = t := by
            simp [hc] at h1
            exact h1
          subst hst
          refine ⟨[], (s, true) :: rest.takeWhile (fun p => p.2),
            rest.dropWhile (fun p => p.2), ?_, rfl, ?_, hc⟩
          · simp [List.takeWhile_append_dropWhile]
          · intro p hp
            rcases List.mem_cons.mp hp with rfl | hp2
            · rfl
            · exact List.mem_takeWhile_imp hp2
        · simp [hc] at h1
      · have hlen2 : (rest.dropWhile fun p => p.2).length ≤ fuel := by
          have hsub : (rest.dropWhile fun p : Int × Bool => p.2).length ≤ rest.length :=
            (List.dropWhile_sublist _).length_le
          simp at hl
          omega
        obtain ⟨pre, run, post, hsplit, hhead, hrun, hstop⟩ := ih _ hlen2 s h2
        refine ⟨(t, true) :: rest.takeWhile (fun p => p.2) ++ pre, run, post, ?_,
          hhead, hrun, hstop⟩
        conv_lhs =>
          rw [show ((t, true) :: rest : List (Int × Bool)) =
            (t, true) :: (rest.takeWhile (fun p => p.2) ++ rest.dropWhile (fun p => p.2)) from by
              rw [List.takeWhile_append_dropWhile]]
        rw [hsplit]
        simp [List.append_assoc]

/-- C5: every slot start returned by `find_available_slots` is free of every
supplied non-all-day event: the half-open window `[s, s+d)` does not
intersect the half-open event interval `[es, ee)`. -/
theorem find_available_slots_no_overlap (events : List CalEvent) (d ws we : Int)
    (out : List Int) (s : Int) (ev : CalEvent) (es ee : Int)
    (hout : findAvailableSlots events d ws we = some out)
    (hs : s ∈ out) (hev : ev ∈ events) (hall : ev.allDay = false)
    (hes : ev.startDate = some es) (hee : ev.endDate = some ee) :
    ¬ (max s es < min (s + d) ee) := by
  intro hov
  cases hiv : timedIntervals events with
  | none =>
    unfold findAvailableSlots at hout
    rw [hiv] at hout
    cases hout
  | some ivs =>
  have hmem : (es, ee) ∈ ivs := timedIntervals_mem events ivs ev hiv hev hall es ee hes hee
  rw [findAvailableSlots_eq_runs events d ws we ivs hiv] at hout
  have hout2 : slotsOfRuns d (gridEnd ws we) (gridPairs ivs ws we) = out :=
    Option.some.inj hout
  subst hout2
  obtain ⟨pre, run, post, hsplit, hhead, hrun, hstop⟩ :=
    slots_mem_decomp d (gridEnd ws we) (gridPairs ivs ws we).length
      (gridPairs ivs ws we) le_rfl s hs
  set n := 2 * (we - ws).toNat with hn
  set F : Nat → Int × Bool :=
    fun i => (ws * 60 + 30 * (i : Int), cellFree ivs (ws * 60 + 30 * (i : Int))) with hF
  have hpairs : gridPairs ivs ws we = (List.range n).map F := by
    unfold gridPairs
    rw [gridCells_shape, List.map_map]
    rfl
  rw [hpairs] at hsplit
  obtain ⟨run2, hrun2⟩ : ∃ tl, run = (s, true) :: tl := by
    cases run with
    | nil => simp at hhead
    | cons p tl =>
      refine ⟨tl, ?_⟩
      simp at hhead
      rw [hhead]
  subst hrun2
  have hlen : n = pre.length + (run2.length + 1) + post.length := by
    have := congrArg List.length hsplit
    simp at this
    omega
  replace hsplit : (List.range n).map F = pre ++ (((s, true) :: run2) ++ post) := by
    rw [hsplit, List.append_assoc]
  -- the head of the run is cell number pre.length
  have h_at_i : ((List.range n).map F)[pre.length]? = some (s, true) := by
    rw [hsplit, List.getElem?_append_right (le_refl pre.length)]
    simp
  have hFi : F pre.length = (s, true) := by
    have hilt : pre.length < n := by omega
    have := range_map_getElem? F n pre.length hilt
    rw [this] at h_at_i
    exact Option.some.inj h_at_i
  have hs_eq : ws * 60 + 30 * (pre.length : Int) = s := congrArg Prod.fst hFi
  -- every cell of the run is available
  have havail : ∀ j : Nat, j < run2.length + 1 →
      cellFree ivs (ws * 60 + 30 * ((pre.length + j : Nat) : Int)) = true := by
    intro j hj
    have hjn : pre.length + j < n := by omega
    have h1 := range_map_getElem? F n (pre.length + j) hjn
    have h2 : ((List.range n).map F)[pre.length + j]? =
        (((s, true) :: run2) : List (Int × Bool))[j]? := by
      rw [hsplit, List.getElem?_append_right (by omega : pre.length ≤ pre.length + j)]
      rw [Nat.add_sub_cancel_left]
      rw [List.getElem?_append_left (by simpa using hj)]
    rw [h1] at h2
    have hjlt : j < ((s, true) :: run2).length := by simpa using hj
    rw [List.getElem?_eq_getElem hjlt] at h2
    simp at h2
    have hpmem : (((s, true) :: run2) : List (Int × Bool))[j] ∈ (s, true) :: run2 :=
      List.getElem_mem hjlt
    have hsnd := hrun _ hpmem
    have := congrArg Prod.snd h2
    simp at this
    rw [← this] at hsnd
    exact hsnd
  -- where the run stops
  have hstop_val : runStop (gridEnd ws we) post =
      ws * 60 + 30 * ((pre.length + (run2.length + 1) : Nat) : Int) := by
    cases hpost : post with
    | nil =>
      have hn0 : n = pre.length + (run2.length + 1) := by
        rw [hpost] at hlen
        simp at hlen
        omega
      have hpos : 0 < 2 * (we - ws).toNat := by omega
      unfold runStop
      simp only [List.head?_nil]
      rw [gridEnd_eq ws we hpos, ← hn, hn0]
    | cons q post2 =>
      have hkn : pre.length + (run2.length + 1) < n := by
        rw [hpost] at hlen
        simp at hlen
        omega
      have h1 := range_map_getElem? F n (pre.length + (run2.length + 1)) hkn
      have h2 : ((List.range n).map F)[pre.length + (run2.length + 1)]? = some q := by
        rw [hsplit, hpost,
          List.getElem?_append_right
            (by omega : pre.length ≤ pre.length + (run2.length + 1)),
          Nat.add_sub_cancel_left,
          List.getElem?_append_right
            (by simp : ((s, true) :: run2 : List (Int × Bool)).length ≤ run2.length + 1)]
        simp
      rw [h1] at h2
      have hq : F (pre.length + (run2.length + 1)) = q := Option.some.inj h2
      unfold runStop
      simp only [List.head?_cons]
      rw [← hq]
  rw [hstop_val] at hstop
  -- arithmetic: locate the blocked cell inside [s, s+d)
  have hx1 : s ≤ max s es := le_max_left s es
  have hx2 : es ≤ max s es := le_max_right s es
  have hx3 : max s es < s + d := lt_of_lt_of_le hov (min_le_left _ _)
  have hx4 : max s es < ee := lt_of_lt_of_le hov (min_le_right _ _)
  set x := max s es with hxdef
  have hxs : 0 ≤ x - s := by omega
  set m0 : Nat := (x - s).toNat with hm0
  have hm0' : (m0 : Int) = x - s := Int.toNat_of_nonneg hxs
  have hdiv := Nat.div_add_mod m0 30
  set q : Nat := m0 / 30 with hq
  set r : Nat := m0 % 30 with hr
  have hrlt : r < 30 := Nat.mod_lt _ (by norm_num)
  have hd30 : d ≤ 30 * ((run2.length + 1 : Nat) : Int) := by
    push_cast at hstop ⊢
    omega
  have hqk : q < run2.length + 1 := by
    have h30q : (30 * q : Int) ≤ (m0 : Int) := by
      omega
    by_contra hge
    push_neg at hge
    have : (30 * (run2.length + 1) : Int) ≤ 30 * (q : Int) := by
      omega
    omega
  have hfree := havail q hqk
  unfold cellFree at hfree
  rw [List.all_eq_true] at hfree
  have hblock := hfree (es, ee) hmem
  simp only [Bool.not_eq_true', Bool.and_eq_false_iff, decide_eq_false_iff_not, not_lt] at hblock
  -- the cell containing x is ws*60 + 30*(pre.length + q) = s + 30*q
  have hcell : ws * 60 + 30 * ((pre.length + q : Nat) : Int) = s + 30 * (q : Int) := by
    push_cast
    push_cast at hs_eq
    omega
  rw [hcell] at hblock
  -- s + 30*q ≤ x < s + 30*q + 30, es ≤ x < ee
  have hcx1 : s + 30 * (q : Int) ≤ x := by
    push_cast at hm0'
    omega
  have hcx2 : x < s + 30 * (q : Int) + 30 := by
    omega
  rcases hblock with hb | hb
  · omega
  · omega

/-- C5 witness: in the 09:00-10:00-event scenario the returned slot start 600
(10:00) does not overlap the event interval [540, 600). -/
theorem find_available_slots_no_overlap_witness :
    ¬ ((max 600 540 : Int) < min (600 + 60) 600) :=
  find_available_slots_no_overlap [demoDayEvent] 60 9 18 [600] 600 demoDayEvent 540 600
    rfl (by simp) (by simp) rfl rfl rfl

end AgencyManager
